import Mathlib

/-!
Verification of the MetaCheck pitfall-detection engine.

This file shallowly embeds the parts of the MetaCheck repository that the
checked properties talk about: the JSON-like values the detectors consume,
the regular-expression checks the detectors perform, the individual
detector functions (`scripts/p008.py`, `scripts/p019.py`, `scripts/p020.py`,
`pitfall_utils.py`, the `PitfallAnalyzer` methods of `detect_pitfalls.py`,
and the corpus aggregation of `detect_pitfalls_main.py` /
`src/metacheck/detect_pitfalls_main.py`), and proves or refutes the stated
properties about them.

Python regular expressions are embedded through a Brzozowski-derivative
matcher over `List Char`; each pattern string from the source is transcribed
into a `RE` value next to a comment quoting the original pattern.
-/

namespace MetaCheck

/-! ## Python string helpers -/

/-- Python `\s` for ASCII text (`' '`, `\t`, `\n`, `\r`, `\v`, `\f`). -/
def isPySpace (c : Char) : Bool :=
  c == ' ' || c == '\t' || c == '\n' || c == '\x0d' || c == '\x0b' || c == '\x0c'

/-- Python `\d` restricted to ASCII digits. -/
def isPyDigit (c : Char) : Bool :=
  '0' ≤ c && c ≤ '9'

/-- ASCII letter, Python `[a-zA-Z]`. -/
def isAsciiAlpha (c : Char) : Bool :=
  ('a' ≤ c && c ≤ 'z') || ('A' ≤ c && c ≤ 'Z')

/-- Python `\w` restricted to ASCII: letters, digits, underscore. -/
def isPyWord (c : Char) : Bool :=
  isAsciiAlpha c || isPyDigit c || c == '_'

/-- `str.strip()` on a character list (both ends, Python whitespace set). -/
def pyStripList (s : List Char) : List Char :=
  (((s.dropWhile isPySpace).reverse).dropWhile isPySpace).reverse

/-- `str.strip()`. -/
def pyStrip (s : String) : String :=
  ⟨pyStripList s.data⟩

/-- `str.lower()` (ASCII part; the analyzed metadata is ASCII). -/
def pyLower (s : String) : String :=
  ⟨s.data.map Char.toLower⟩

/-- Substring test, `needle in haystack` for Python strings. -/
def isInfixOfL (needle haystack : List Char) : Bool :=
  (List.range (haystack.length + 1)).any
    (fun i => needle.isPrefixOf (haystack.drop i))

/-- `needle in haystack` for `String`. -/
def strContains (haystack needle : String) : Bool :=
  isInfixOfL needle.data haystack.data

/-- `s.startswith(pre)`. -/
def pyStartsWith (s pre : String) : Bool :=
  pre.data.isPrefixOf s.data

/-- `s[n:]`. -/
def pyDropChars (s : String) (n : Nat) : String :=
  ⟨s.data.drop n⟩

/-- `s.split(sep)` for a single-character separator, keeping empty pieces
like Python does. -/
def pySplitChar (sep : Char) (s : String) : List String :=
  go s.data []
where
  go : List Char → List Char → List String
    | [], acc => [⟨acc.reverse⟩]
    | c :: cs, acc =>
      if c == sep then ⟨acc.reverse⟩ :: go cs [] else go cs (c :: acc)

/-- `s.split('\n')`. -/
def splitLines (s : String) : List String :=
  pySplitChar '\n' s

/-! ## Regular expressions (Brzozowski derivatives)

`search re s` is Python's `re.search(pattern, s) is not None`,
`matchRE re s` is `re.match(pattern, s) is not None` (anchored at the start,
free at the end), `matchAll re s` anchors both ends, and `searchEnd re s`
is a search for a match that ends exactly at the end of the string
(patterns written `...$` in the source). -/

inductive RE where
  | emp : RE
  | eps : RE
  | cls (p : Char → Bool) : RE
  | cat (r s : RE) : RE
  | alt (r s : RE) : RE
  | star (r : RE) : RE

namespace RE

def nullable : RE → Bool
  | emp => false
  | eps => true
  | cls _ => false
  | cat r s => nullable r && nullable s
  | alt r s => nullable r || nullable s
  | star _ => true

/-- Smart concatenation collapsing `emp` and `eps`. -/
def catS : RE → RE → RE
  | emp, _ => emp
  | eps, s => s
  | r, s =>
    match s with
    | emp => emp
    | eps => r
    | s => cat r s

/-- Smart alternation collapsing `emp`. -/
def altS : RE → RE → RE
  | emp, s => s
  | r, s =>
    match s with
    | emp => r
    | s => alt r s

def deriv : RE → Char → RE
  | emp, _ => emp
  | eps, _ => emp
  | cls p, c => if p c then eps else emp
  | cat r s, c =>
    if nullable r then altS (catS (deriv r c) s) (deriv s c)
    else catS (deriv r c) s
  | alt r s, c => altS (deriv r c) (deriv s c)
  | star r, c => catS (deriv r c) (star r)

/-- Does `r` match some prefix of `s` (Python `re.match`)? -/
def matchHere : RE → List Char → Bool
  | emp, _ => false
  | r, [] => nullable r
  | r, c :: cs => nullable r || matchHere (deriv r c) cs

/-- Does `r` match all of `s`? -/
def matchAllL : RE → List Char → Bool
  | r, [] => nullable r
  | emp, _ :: _ => false
  | r, c :: cs => matchAllL (deriv r c) cs

/-- Does `r` match a substring starting anywhere (Python `re.search`)? -/
def searchL : RE → List Char → Bool
  | r, [] => nullable r
  | r, s@(_ :: cs) => matchHere r s || searchL r cs

/-- Does `r` match a substring ending exactly at the end (`...$` searches)? -/
def searchEndL : RE → List Char → Bool
  | r, [] => nullable r
  | r, s@(_ :: cs) => matchAllL r s || searchEndL r cs

def search (r : RE) (s : String) : Bool := searchL r s.data
def matchRE (r : RE) (s : String) : Bool := matchHere r s.data
def matchFull (r : RE) (s : String) : Bool := matchAllL r s.data
def searchEnd (r : RE) (s : String) : Bool := searchEndL r s.data

/-- Single literal character. -/
def chr (c : Char) : RE := cls (· == c)

/-- Literal string. -/
def lit (s : String) : RE := s.data.foldr (fun c r => cat (chr c) r) eps

/-- `r?` -/
def opt (r : RE) : RE := alt r eps

/-- `r+` -/
def plus (r : RE) : RE := cat r (star r)

/-- `r{n}` -/
def rep (r : RE) : Nat → RE
  | 0 => eps
  | n + 1 => cat r (rep r n)

/-- `\s` -/
def ws : RE := cls isPySpace
/-- `\s*` -/
def wsStar : RE := star ws
/-- `\s+` -/
def wsPlus : RE := plus ws
/-- `\d` -/
def digit : RE := cls isPyDigit
/-- `.` (any character except newline, Python default). -/
def dot : RE := cls (· != '\n')
/-- `.*` -/
def dotStar : RE := star dot
/-- Words separated by `\s+`: `lit w₁ \s+ lit w₂ …`. -/
def phrase : List String → RE
  | [] => eps
  | [w] => lit w
  | w :: ws => cat (lit w) (cat wsPlus (phrase ws))

end RE

/-- Python `re.match` of an `^...$` pattern: `$` (without `re.MULTILINE`)
matches at the end of the string and also just before a single trailing
newline. -/
def matchFullPy (r : RE) (s : String) : Bool :=
  RE.matchAllL r s.data ||
    (match s.data.getLast? with
     | some c => c == '\n' && RE.matchAllL r s.data.dropLast
     | none => false)

/-- Python `re.search` of a pattern ending in `$`: the match ends at the
end of the string or just before a single trailing newline. -/
def searchEndPy (r : RE) (s : String) : Bool :=
  RE.searchEndL r s.data ||
    (match s.data.getLast? with
     | some c => c == '\n' && RE.searchEndL r s.data.dropLast
     | none => false)

/-! ## JSON values

The extraction records consumed by the detectors are parsed JSON documents.
`JValue` models them; a top-level record (`somef_data`) is a JSON object,
modelled as its association list `Somef`.  Python dictionaries preserve
insertion order and have unique keys; lookups below return the first match,
which coincides with dictionary lookup on such lists. -/

inductive JValue where
  | str (s : String)
  | num (n : Int)
  | bool (b : Bool)
  | null
  | arr (xs : List JValue)
  | obj (kvs : List (String × JValue))

abbrev Somef := List (String × JValue)

namespace JValue

/-- Python `value == "literal"`: the detectors only ever compare a JSON
value against a string literal, which is `False` for non-strings. -/
def eqStr (v : JValue) (s : String) : Bool :=
  match v with
  | .str t => t == s
  | _ => false

/-- `value is None`. -/
def isNull : JValue → Bool
  | .null => true
  | _ => false

/-- Python truthiness of a JSON value. -/
def truthy : JValue → Bool
  | str s => s != ""
  | num n => n != 0
  | bool b => b
  | null => false
  | arr xs => !xs.isEmpty
  | obj kvs => !kvs.isEmpty

end JValue

/-- Dictionary lookup `d[k]` / `k in d` on an association list. -/
def lookupKey (kvs : Somef) (k : String) : Option JValue :=
  (kvs.find? (fun p => p.1 == k)).map (·.2)

/-- `d.get(k, default)`. -/
def pyGet (kvs : Somef) (k : String) (dflt : JValue) : JValue :=
  (lookupKey kvs k).getD dflt

/-- `for key in d.keys(): if key.lower() in spellings: value = d[key]; break`
— the repeated case-insensitive field-locator idiom of `detect_pitfalls.py`.
Returns the value of the first key whose lower-casing is an accepted
spelling. -/
def lookupLowerIn (kvs : Somef) (spellings : List String) : Option JValue :=
  (kvs.find? (fun p => spellings.contains (pyLower p.1))).map (·.2)

/-- Python `key in value` for the shapes that occur (`TypeError` on the
rest, modelled as `none`): key test on dicts, membership on lists,
substring test on strings. -/
def pyIn (k : String) : JValue → Option Bool
  | .obj kvs => some (kvs.any (fun p => p.1 == k))
  | .arr xs => some (xs.any (fun v => JValue.eqStr v k))
  | .str s => some (strContains s k)
  | _ => none

/-! ## `pitfall_utils.py` -/

/-- The fixed language allow-list of `extract_programming_languages`. -/
def target_languages : List String := ["Python", "Java", "C++", "C", "R", "Rust"]

/-- `pitfall_utils.normalize_language_name`. -/
def normalize_language_name (s : String) : String :=
  let t := pyStrip s
  if pyStartsWith (pyLower t) "python" then "Python"
  else if ["c++", "cpp", "cplusplus"].contains (pyLower t) then "C++"
  else match pyLower t with
    | "java" => "Java"
    | "c" => "C"
    | "r" => "R"
    | "rust" => "Rust"
    | _ => t

/-- `lang_name`: `result["value"]` if the key is present, else
`result["name"]` if present, else `None`. -/
def resultLangName (rkvs : Somef) : Option JValue :=
  match lookupKey rkvs "value" with
  | some v => some v
  | none => lookupKey rkvs "name"

/-- The entry loop of `extract_programming_languages`, carrying `lang_list`
and `seen_languages` (the Python set is modelled as the list of elements in
insertion order — only membership is used).  `none` models the
`AttributeError` raised by `normalize_language_name` when a truthy
non-string value reaches `.strip()`; the caller catches it per file. -/
def extractLangsLoop : List JValue → List String → List String →
    Option (List String × List String)
  | [], acc, seen => some (acc, seen)
  | entry :: rest, acc, seen =>
    match entry with
    | .obj kvs =>
      match lookupKey kvs "result" with
      | some (.obj rkvs) =>
        match resultLangName rkvs with
        | some v =>
          if v.truthy then
            match v with
            | .str s =>
              let n := normalize_language_name s
              if target_languages.contains n && !seen.contains n then
                extractLangsLoop rest (acc ++ [n]) (seen ++ [n])
              else extractLangsLoop rest acc seen
            | _ => none
          else extractLangsLoop rest acc seen
        | none => extractLangsLoop rest acc seen
      | some _ => extractLangsLoop rest acc seen
      | none => extractLangsLoop rest acc seen
    | _ => extractLangsLoop rest acc seen

/-- `pitfall_utils.extract_programming_languages`; `none` models a raised
exception (which makes the caller skip the whole repository file). -/
def extract_programming_languages (somef : Somef) : Option (List String) :=
  match lookupKey somef "programming_languages" with
  | none => some []
  | some (.arr entries) => (extractLangsLoop entries [] []).map (·.1)
  | some _ => some []

/-! ## `scripts/p008.py` (legacy variant) -/

open RE in
/-- The `local_file_patterns` loop body of the legacy
`scripts/p008.py::is_local_file_license`, applied to the lower-cased value:
`^\./`, `^\.\./`, `license\.md$`, `license\.txt$`, `license$`, `/license`,
`\.md$`, `\.txt$` (each via `re.search`). -/
def p008v1_pattern_hit (low : String) : Bool :=
  matchRE (lit "./") low ||
  matchRE (lit "../") low ||
  searchEndPy (lit "license.md") low ||
  searchEndPy (lit "license.txt") low ||
  searchEndPy (lit "license") low ||
  search (lit "/license") low ||
  searchEndPy (lit ".md") low ||
  searchEndPy (lit ".txt") low

/-- Legacy `scripts/p008.py::is_local_file_license` (no valid-URL
exemption list). -/
def is_local_file_license (s : String) : Bool :=
  if s == "" then false
  else
    let low := pyLower s
    if p008v1_pattern_hit low then true
    else if pyStartsWith s "./" || pyStartsWith s "../" then true
    else if strContains s "/" || strContains s "\\" then true
    else false

/-- `is_local_file_license` on a raw JSON value: falsy values short-circuit
to `False`; a truthy non-string raises at `.lower()` (`none`). -/
def is_local_file_license_j (v : JValue) : Option Bool :=
  if !v.truthy then some false
  else match v with
    | .str s => some (is_local_file_license s)
    | _ => none

/-- The metadata source names of both `detect_local_file_license_pitfall`
variants. -/
def metadata_sources : List String :=
  ["codemeta.json", "DESCRIPTION", "composer.json", "package.json",
   "pom.xml", "pyproject.toml", "requirements.txt", "setup.py"]

/-- Result dictionary of `detect_local_file_license_pitfall` (the
`source`-string formatting of the Python f-string fallback is abstracted to
the raw source value). -/
structure P008Result where
  has_pitfall : Bool
  file_name : String
  license_value : Option JValue
  source : Option JValue
  is_local_file : Bool

def p008_empty (fname : String) : P008Result :=
  ⟨false, fname, none, none, false⟩

/-- The entry loop of the legacy `detect_local_file_license_pitfall`;
`none` models a raised exception (non-dict entry, `.lower()` on a
non-string source, string/list subscription, …). -/
def p008_loop (fname : String) : List JValue → Option P008Result
  | [] => some (p008_empty fname)
  | entry :: rest =>
    match entry with
    | .obj kvs =>
      let technique := pyGet kvs "technique" (.str "")
      let source := pyGet kvs "source" (.str "")
      -- `technique == "code_parser" or any(src in source.lower() for src in metadata_sources)`
      let fromMeta? : Option Bool :=
        if JValue.eqStr technique "code_parser" then some true
        else match source with
          | .str s => some (metadata_sources.any (fun src => strContains (pyLower s) src))
          | _ => none
      match fromMeta? with
      | none => none
      | some false => p008_loop fname rest
      | some true =>
        -- `if "result" in entry and "value" in entry["result"]:`
        match lookupKey kvs "result" with
        | none => p008_loop fname rest
        | some res =>
          match pyIn "value" res with
          | none => none
          | some false => p008_loop fname rest
          | some true =>
            match res with
            | .obj rkvs =>
              match lookupKey rkvs "value" with
              | some lv =>
                match is_local_file_license_j lv with
                | none => none
                | some true => some
                    { has_pitfall := true, file_name := fname,
                      license_value := some lv, source := some source,
                      is_local_file := true }
                | some false => p008_loop fname rest
              | none => p008_loop fname rest
            | _ => none
    | _ => none

/-- Legacy `scripts/p008.py::detect_local_file_license_pitfall`. -/
def detect_local_file_license_pitfall (somef : Somef) (fname : String) :
    Option P008Result :=
  match lookupKey somef "license" with
  | none => some (p008_empty fname)
  | some (.arr entries) => p008_loop fname entries
  | some _ => some (p008_empty fname)

/-! ## `src/metacheck/scripts/p008.py` (metacheck variant) -/

open RE in
/-- `https?://` -/
def reHttp : RE := cat (lit "http") (cat (opt (chr 's')) (lit "://"))

open RE in
/-- `valid_license_patterns` of the metacheck `is_local_file_license`,
searched case-insensitively (modelled by lower-casing input and
patterns). -/
def p008v2_valid_patterns : List RE :=
  [cat reHttp (lit "spdx.org/licenses/"),
   cat reHttp (lit "opensource.org/licenses/"),
   cat reHttp (lit "www.gnu.org/licenses/"),
   cat reHttp (lit "creativecommons.org/licenses/"),
   cat reHttp (lit "www.apache.org/licenses/"),
   cat reHttp (lit "www.mozilla.org/en-us/mpl/"),
   cat reHttp (lit "unlicense.org"),
   cat reHttp (lit "choosealicense.com/")]

/-- Does the value match one of the valid canonical license URL patterns
(`re.search(pattern, license_value, re.IGNORECASE)`)? -/
def p008v2_valid_hit (s : String) : Bool :=
  p008v2_valid_patterns.any (fun r => RE.search r (pyLower s))

open RE in
/-- `local_file_patterns` of the metacheck `is_local_file_license`:
`^\./`, `^\.\./`, `^license\.md$`, `^license\.txt$`, `^license$`,
`^copying$`, `^copyright$`, `\.md$`, `\.txt$`, `\.rst$`. -/
def p008v2_pattern_hit (low : String) : Bool :=
  matchRE (lit "./") low ||
  matchRE (lit "../") low ||
  matchFullPy (lit "license.md") low ||
  matchFullPy (lit "license.txt") low ||
  matchFullPy (lit "license") low ||
  matchFullPy (lit "copying") low ||
  matchFullPy (lit "copyright") low ||
  searchEndPy (lit ".md") low ||
  searchEndPy (lit ".txt") low ||
  searchEndPy (lit ".rst") low

/-- `license_file_names` of the metacheck variant. -/
def p008v2_license_file_names : List String :=
  ["license", "license.md", "license.txt", "license.rst",
   "copying", "copying.md", "copying.txt",
   "copyright", "copyright.md", "copyright.txt",
   "licence", "licence.md", "licence.txt"]

/-- Metacheck `src/metacheck/scripts/p008.py::is_local_file_license`:
the valid-URL exemption is checked before every filename heuristic. -/
def is_local_file_license_v2 (s : String) : Bool :=
  if s == "" then false
  else if p008v2_valid_hit s then false
  else if pyStartsWith s "./" || pyStartsWith s "../" then true
  else if (strContains s "/" || strContains s "\\") && !pyStartsWith s "http" then true
  else if p008v2_pattern_hit (pyLower s) then true
  else if p008v2_license_file_names.contains (pyLower s) then true
  else false

/-! ## `scripts/p020.py` -/

open RE in
/-- `copyright_only_patterns` of `check_copyright_only_license`:
`year:\s*\d{4}`, `copyright\s+holder:\s*[a-zA-Z]`, `author:\s*[a-zA-Z]`,
`copyright\s*©?\s*\d{4}`, `©\s*\d{4}`, `\(c\)\s*\d{4}`. -/
def p020_copyright_patterns : List RE :=
  [cat (lit "year:") (cat wsStar (rep digit 4)),
   cat (lit "copyright") (cat wsPlus (cat (lit "holder:") (cat wsStar (cls isAsciiAlpha)))),
   cat (lit "author:") (cat wsStar (cls isAsciiAlpha)),
   cat (lit "copyright") (cat wsStar (cat (opt (chr '©')) (cat wsStar (rep digit 4)))),
   cat (chr '©') (cat wsStar (rep digit 4)),
   cat (lit "(c)") (cat wsStar (rep digit 4))]

open RE in
/-- `license_term_patterns` of `check_copyright_only_license`. -/
def p020_license_term_patterns : List RE :=
  [phrase ["permission", "is", "hereby", "granted"],
   phrase ["subject", "to", "the", "following", "conditions"],
   phrase ["redistribution", "and", "use"],
   phrase ["without", "restriction"],
   phrase ["without", "warranty"],
   lit "liability",
   phrase ["terms", "and", "conditions"],
   phrase ["licensed", "under"],
   phrase ["mit", "license"],
   phrase ["apache", "license"],
   phrase ["gnu", "general", "public", "license"],
   phrase ["bsd", "license"],
   phrase ["creative", "commons"]]

/-- `has_copyright_info` of `check_copyright_only_license` (searching the
lower-cased content). -/
def p020_has_copyright (low : String) : Bool :=
  p020_copyright_patterns.any (fun r => RE.search r low)

/-- `has_license_terms` of `check_copyright_only_license`. -/
def p020_has_terms (low : String) : Bool :=
  p020_license_term_patterns.any (fun r => RE.search r low)

open RE in
/-- Fast-path marker `year:\s*\d{4}` of `check_copyright_only_license`. -/
def p020_year_marker : RE := cat (lit "year:") (cat wsStar (rep digit 4))

open RE in
/-- Fast-path marker `copyright\s+holder:` of
`check_copyright_only_license`. -/
def p020_holder_marker : RE := cat (lit "copyright") (cat wsPlus (lit "holder:"))

/-- `len(content_lines)` of `check_copyright_only_license`: the number of
non-empty lines of the stripped content. -/
def p020_nonempty_lines (content : String) : Nat :=
  ((splitLines (pyStrip content)).filter (fun l => pyStrip l != "")).length

/-- `scripts/p020.py::check_copyright_only_license`. -/
def check_copyright_only_license (content : String) : Bool :=
  if content == "" then false
  else
    let low := pyLower content
    if p020_has_copyright low && !p020_has_terms low &&
        p020_nonempty_lines content ≤ 10 then true
    else if RE.search p020_year_marker low && RE.search p020_holder_marker low then
      true
    else false

/-! ## `detect_pitfalls.py` analyzers (class `PitfallAnalyzer`) -/

/-- `key.isdigit()` for ASCII keys. -/
def pyIsDigitStr (s : String) : Bool :=
  s != "" && s.data.all isPyDigit

/-- Analysis record of `_analyze_software_requirements` (the
`missing_version_items` names keep the raw JSON values; Python's `str()`
rendering of non-string items is abstracted). -/
structure SwReqAnalysis where
  has_software_requirements : Bool
  total_requirements : Nat
  requirements_without_version : Nat
  requirements_with_version : Nat
  missing_version_items : List JValue
  structure_type : String

/-- The accepted version-key spellings of
`_analyze_software_requirements` (line 163). -/
def swreq_version_keys : List String :=
  ["version", "softwareversion", "applicationversion"]

/-- Item decomposition of `_analyze_software_requirements` (lines 134-156):
shape tag and `requirements_list`. -/
def swreq_items : JValue → String × List JValue
  | .arr xs => ("list", xs)
  | .obj kvs =>
    if (kvs.map (·.1)).any (fun k => pyIsDigitStr k || k == "SystemRequirements") then
      ("numbered_object",
       ((kvs.filter (fun p => p.1 != "SystemRequirements" && !(JValue.isNull p.2))).map (·.2)))
    else ("single_object", [.obj kvs])
  | v => ("string_or_other", [v])

/-- Does an object-shaped requirement item count as having a version
(`any(key.lower() in [...] for key in req.keys())`)? -/
def swreq_item_has_version (kvs : Somef) : Bool :=
  kvs.any (fun p => swreq_version_keys.contains (pyLower p.1))

/-- Per-item classification loop of `_analyze_software_requirements`,
producing `(with_version, without_version, missing_version_items)` (the
Python `for` loop accumulates the same counts and the same item order). -/
def swreq_scan : List JValue → Nat × Nat × List JValue
  | [] => (0, 0, [])
  | req :: rest =>
    let r := swreq_scan rest
    match req with
    | .obj kvs =>
      if swreq_item_has_version kvs then (r.1 + 1, r.2.1, r.2.2)
      else
        (r.1, r.2.1 + 1,
         pyGet kvs "name" (pyGet kvs "identifier" (.str "Unknown")) :: r.2.2)
    | .str s => (r.1, r.2.1 + 1, .str s :: r.2.2)
    | v => (r.1, r.2.1 + 1, v :: r.2.2)

/-- `detect_pitfalls.PitfallAnalyzer._analyze_software_requirements`. -/
def analyze_software_requirements (cm : Somef) : Bool × SwReqAnalysis :=
  match lookupLowerIn cm ["softwarerequirements", "software_requirements"] with
  | none => (false, ⟨false, 0, 0, 0, [], "none"⟩)
  | some v =>
    if !v.truthy then (false, ⟨false, 0, 0, 0, [], "none"⟩)
    else
      let st := swreq_items v
      let scan := swreq_scan st.2
      ((scan.2.1 > 0 : Bool),
       ⟨true, st.2.length, scan.2.1, scan.1, scan.2.2, st.1⟩)

/-- Analysis record of `_analyze_programming_languages_versions`. -/
structure ProgLangAnalysis where
  has_programming_languages : Bool
  total_languages : Nat
  languages_without_version : Nat
  languages_with_version : Nat
  missing_version_items : List JValue
  structure_type : String

/-- The accepted version-key spellings of
`_analyze_programming_languages_versions` (line 731). -/
def proglang_version_keys : List String :=
  ["version", "versionrequirement", "softwareversion"]

open RE in
/-- String-item `version_patterns` of
`_analyze_programming_languages_versions` (searched with `re.IGNORECASE`):
`.*\s+\d+\.\d+`, `.*\s+v\d+\.\d+`, `.*\s+>=?\s*\d+\.\d+`,
`.*\s+\(\d+\.\d+\)`, `.*\d+\.\d+.*`. -/
def proglang_version_patterns : List RE :=
  let numDotNum := cat (plus digit) (cat (chr '.') (plus digit))
  let vAnyCase := cls (fun c => c == 'v' || c == 'V')
  [cat dotStar (cat wsPlus numDotNum),
   cat dotStar (cat wsPlus (cat vAnyCase numDotNum)),
   cat dotStar (cat wsPlus (cat (chr '>') (cat (opt (chr '=')) (cat wsStar numDotNum)))),
   cat dotStar (cat wsPlus (cat (chr '(') (cat numDotNum (chr ')')))),
   cat dotStar (cat numDotNum dotStar)]

/-- Does an object-shaped language item count as having a version
(`any(key.lower() in [...] for key in lang.keys())`)? -/
def proglang_item_has_version_keys (kvs : Somef) : Bool :=
  kvs.any (fun p => proglang_version_keys.contains (pyLower p.1))

/-- Per-item classification of `_analyze_programming_languages_versions`:
`(has_version, lang_name)`. -/
def proglang_item_version (lang : JValue) : Bool × JValue :=
  match lang with
  | .obj kvs =>
    (proglang_item_has_version_keys kvs,
     pyGet kvs "name" (pyGet kvs "identifier" (.str "Unknown")))
  | .str s =>
    (proglang_version_patterns.any (fun r => RE.search r s), .str s)
  | _ => (false, .str "Unknown")

/-- Per-item classification loop of
`_analyze_programming_languages_versions`, producing
`(with_version, without_version, missing_version_items)` (the Python `for`
loop accumulates the same counts and the same item order). -/
def proglang_scan : List JValue → Nat × Nat × List JValue
  | [] => (0, 0, [])
  | lang :: rest =>
    let r := proglang_scan rest
    let c := proglang_item_version lang
    if c.1 then (r.1 + 1, r.2.1, r.2.2)
    else (r.1, r.2.1 + 1, c.2 :: r.2.2)

/-- `detect_pitfalls.PitfallAnalyzer._analyze_programming_languages_versions`. -/
def analyze_programming_languages_versions (cm : Somef) : Bool × ProgLangAnalysis :=
  match lookupLowerIn cm
      ["programminglanguage", "programming_language", "programminglanguages"] with
  | none => (false, ⟨false, 0, 0, 0, [], "none"⟩)
  | some v =>
    if !v.truthy then (false, ⟨false, 0, 0, 0, [], "none"⟩)
    else
      let st : String × List JValue :=
        match v with
        | .arr xs => ("list", xs)
        | .str s => ("string", [.str s])
        | .obj kvs => ("object", [.obj kvs])
        | w => ("other", [w])
      let scan := proglang_scan st.2
      ((scan.2.1 > 0 : Bool),
       ⟨true, st.2.length, scan.2.1, scan.1, scan.2.2, st.1⟩)

/-- Analysis record of `_analyze_software_version`. -/
structure SwVersionAnalysis where
  has_software_version : Bool
  software_version : Option JValue
  is_branch_name : Bool
  detected_branch_type : Option String

open RE in
/-- The ordered `branch_name_patterns` table of `_analyze_software_version`
(each matched with `re.match` against the lower-cased, stripped value;
entries written with both anchors are full matches, the rest are prefix
matches). -/
def branch_name_patterns : List ((String → Bool) × String) :=
  [(matchFullPy (lit "master"), "main_branch"),
   (matchFullPy (lit "main"), "main_branch"),
   (matchFullPy (lit "trunk"), "main_branch"),
   (matchFullPy (lit "develop"), "development_branch"),
   (matchFullPy (lit "development"), "development_branch"),
   (matchFullPy (lit "dev"), "development_branch"),
   (matchFullPy (lit "devel"), "development_branch"),
   (matchRE (cat (lit "feature") dotStar), "feature_branch"),
   (matchRE (cat (lit "feat") dotStar), "feature_branch"),
   (matchRE (cat (lit "topic") dotStar), "topic_branch"),
   (matchRE (cat (lit "fix") dotStar), "fix_branch"),
   (matchRE (cat (lit "bugfix") dotStar), "fix_branch"),
   (matchRE (cat (lit "hotfix") dotStar), "fix_branch"),
   (matchRE (cat (lit "release") dotStar), "release_branch"),
   (matchRE (cat (lit "rel") dotStar), "release_branch"),
   (matchFullPy (lit "stable"), "stable_branch"),
   (matchFullPy (lit "latest"), "latest_branch"),
   (matchFullPy (lit "current"), "current_branch"),
   (matchFullPy (lit "head"), "head_branch"),
   (matchFullPy (lit "tip"), "tip_branch"),
   (matchRE (cat dotStar (cat (chr '/') dotStar)), "path_like_branch")]

open RE in
/-- `proper_version_patterns` of `_analyze_software_version` (matched with
`re.match`, case-sensitively, against the original value):
`^\d+\.\d+(\.\d+)?`, `^v\d+\.\d+(\.\d+)?`, `^\d+\.\d+\.\d+(-\w+)?$`,
`^\d{4}\.\d{1,2}(\.\d+)?$`, `^\d+[a-zA-Z]\d*$`, `^\d+(\.\d+)*[a-zA-Z]\d*$`. -/
def proper_version_hit (s : String) : Bool :=
  let dplus := plus digit
  let dotD := cat (chr '.') dplus
  matchRE (cat dplus (cat dotD (opt dotD))) s ||
  matchRE (cat (chr 'v') (cat dplus (cat dotD (opt dotD)))) s ||
  matchFullPy (cat dplus (cat dotD (cat dotD
    (opt (cat (chr '-') (plus (cls isPyWord))))))) s ||
  matchFullPy (cat (rep digit 4) (cat (chr '.') (cat digit (cat (opt digit) (opt dotD))))) s ||
  matchFullPy (cat dplus (cat (cls isAsciiAlpha) (star digit))) s ||
  matchFullPy (cat dplus (cat (star dotD) (cat (cls isAsciiAlpha) (star digit)))) s

open RE in
/-- The trailing `^[a-zA-Z_-]+$` check of `_analyze_software_version`. -/
def custom_branch_hit (s : String) : Bool :=
  matchFullPy (plus (cls (fun c => isAsciiAlpha c || c == '_' || c == '-'))) s

/-- `detect_pitfalls.PitfallAnalyzer._analyze_software_version`. -/
def analyze_software_version (cm : Somef) : Bool × SwVersionAnalysis :=
  match lookupLowerIn cm ["softwareversion", "software_version", "version"] with
  | none => (false, ⟨false, none, false, none⟩)
  | some v =>
    if !v.truthy then (false, ⟨false, none, false, none⟩)
    else
      match v with
      | .str s =>
        let vlow := pyStrip (pyLower s)
        match branch_name_patterns.find? (fun p => p.1 vlow) with
        | some p => (true, ⟨true, some v, true, some p.2⟩)
        | none =>
          if !proper_version_hit s && custom_branch_hit s then
            (true, ⟨true, some v, true, some "custom_branch"⟩)
          else (false, ⟨true, some v, false, none⟩)
      | _ => (false, ⟨true, some v, false, none⟩)

/-- Analysis record of `_analyze_identifier_empty`. -/
structure IdentifierAnalysis where
  has_identifier : Bool
  identifier_value : Option JValue
  is_empty : Bool
  identifier_type : String

/-- `not item or (isinstance(item, str) and item.strip() == "")`, the
blank-item test of `_analyze_identifier_empty`. -/
def blankItem (v : JValue) : Bool :=
  !v.truthy ||
    (match v with
     | .str s => pyStrip s == ""
     | _ => false)

/-- `detect_pitfalls.PitfallAnalyzer._analyze_identifier_empty`. -/
def analyze_identifier_empty (cm : Somef) : Bool × IdentifierAnalysis :=
  match lookupLowerIn cm ["identifier"] with
  | none => (false, ⟨false, none, false, "none"⟩)
  | some .null => (false, ⟨false, none, false, "none"⟩)
  | some v =>
    match v with
    | .str s =>
      let e := s == "" || pyStrip s == ""
      (e, ⟨true, some v, e, "string"⟩)
    | .arr xs =>
      let e := xs.isEmpty || xs.all blankItem
      (e, ⟨true, some v, e, "list"⟩)
    | .obj kvs =>
      let e := kvs.isEmpty || kvs.all (fun p => blankItem p.2)
      (e, ⟨true, some v, e, "object"⟩)
    | _ => (false, ⟨true, some v, false, "other"⟩)

/-- Analysis record of `_analyze_keywords_string_instead_of_list`. -/
structure KeywordsAnalysis where
  has_keywords : Bool
  keywords_value : Option JValue
  is_string : Bool
  keywords_type : String
  parsed_keywords : List String

/-- Token parsing of `_analyze_keywords_string_instead_of_list`: split on
`,` if a comma is present, else on `;` if a semicolon is present, else the
whole stripped string as one token (dropping blank pieces). -/
def parseKeywordTokens (s : String) : List String :=
  if strContains s "," then (((pySplitChar ',' s)).map pyStrip).filter (· != "")
  else if strContains s ";" then (((pySplitChar ';' s)).map pyStrip).filter (· != "")
  else if pyStrip s != "" then [pyStrip s] else []

/-- `detect_pitfalls.PitfallAnalyzer._analyze_keywords_string_instead_of_list`. -/
def analyze_keywords_string_instead_of_list (cm : Somef) : Bool × KeywordsAnalysis :=
  match lookupLowerIn cm ["keywords", "keyword", "tags", "tag"] with
  | none => (false, ⟨false, none, false, "none", []⟩)
  | some .null => (false, ⟨false, none, false, "none", []⟩)
  | some v =>
    match v with
    | .str s => (true, ⟨true, some v, true, "string", parseKeywordTokens s⟩)
    | .arr xs => (false, ⟨true, some (.arr xs), false, "list", []⟩)
    | .obj kvs => (false, ⟨true, some (.obj kvs), false, "object", []⟩)
    | w => (false, ⟨true, some w, false, "other", []⟩)

/-! ## Capture groups for `scripts/p019.py`

The download-URL and release-name patterns of `p019.py` extract a capture
group (`match.group(1)`).  `CRE` is a star-free regex fragment (stars occur
in those patterns only over character classes) whose `enum` lists the
possible `(consumed, rest)` splits in Python's backtracking priority order:
alternatives left first, repetition longest first.  A pattern is a
`pre`/`group`/`post` triple; `firstGroup` returns the group text of the
first match in leftmost-then-priority order, exactly `re.search(...).group(1)`. -/

inductive CRE where
  | eps : CRE
  | cls (p : Char → Bool) : CRE
  | cat (r s : CRE) : CRE
  | alt (r s : CRE) : CRE
  | clsStar (p : Char → Bool) : CRE

namespace CRE

/-- All `(consumed, rest)` splits of `s` accepted by the pattern, in
backtracking priority order (greedy: longest repetition first, left
alternative first). -/
def enum : CRE → List Char → List (List Char × List Char)
  | eps, s => [([], s)]
  | cls _, [] => []
  | cls p, c :: cs => if p c then [([c], cs)] else []
  | alt r₁ r₂, s => r₁.enum s ++ r₂.enum s
  | cat r₁ r₂, s =>
    (r₁.enum s).flatMap (fun a => (r₂.enum a.2).map (fun b => (a.1 ++ b.1, b.2)))
  | clsStar p, s =>
    let m := (s.takeWhile p).length
    (List.range (m + 1)).map (fun k => (s.take (m - k), s.drop (m - k)))

/-- `r?` -/
def copt (r : CRE) : CRE := alt r eps

/-- `r+` for a character class. -/
def cplus (p : Char → Bool) : CRE := cat (cls p) (clsStar p)

/-- Literal string. -/
def clit (s : String) : CRE := s.data.foldr (fun c r => cat (cls (· == c)) r) eps

/-- Group text of the highest-priority match anchored at the start of `s`,
`none` if the pattern does not match here.  When `anchorEnd` is set the
`post` part must consume the whole remainder (a trailing `$`). -/
def firstGroupAt (pre grp post : CRE) (anchorEnd : Bool) (s : List Char) :
    Option (List Char) :=
  ((pre.enum s).flatMap (fun a =>
    (grp.enum a.2).flatMap (fun g =>
      ((post.enum g.2).filter (fun b => !anchorEnd || b.2.isEmpty)).map
        (fun _ => g.1)))).head?

/-- `re.search(...).group(1)`: the group of the match at the leftmost
start position. -/
def firstGroup (pre grp post : CRE) (anchorEnd : Bool) :
    List Char → Option (List Char)
  | [] => firstGroupAt pre grp post anchorEnd []
  | s@(_ :: cs) =>
    match firstGroupAt pre grp post anchorEnd s with
    | some g => some g
    | none => firstGroup pre grp post anchorEnd cs

end CRE

/-! ## `scripts/p019.py` -/

/-- `[a-zA-Z0-9\-\.]` -/
def verChar (c : Char) : Bool :=
  isAsciiAlpha c || isPyDigit c || c == '-' || c == '.'

open CRE in
/-- The shared capture group
`(\d+\.\d+(?:\.\d+)?(?:[a-zA-Z0-9\-\.]*)?)` of `p019.py`. -/
def creVersionGroup : CRE :=
  cat (cplus isPyDigit)
    (cat (cls (· == '.'))
      (cat (cplus isPyDigit)
        (cat (copt (cat (cls (· == '.')) (cplus isPyDigit)))
          (copt (clsStar verChar)))))

open CRE in
/-- `(?:v)?` -/
def creOptV : CRE := copt (cls (· == 'v'))

/-- `p019.py::extract_version_from_download_url`.  The three patterns are
`/archive/(?:v)?(G)`, `[-_](?:v)?(G)\.` and `/(?:v)?(G)/[^/]*$` with `G`
the shared version group; the first pattern that matches wins. -/
def extract_version_from_download_url (url : String) : Option String :=
  if url == "" then none
  else
    match CRE.firstGroup (CRE.cat (CRE.clit "/archive/") creOptV)
        creVersionGroup CRE.eps false url.data with
    | some g => some ⟨g⟩
    | none =>
      match CRE.firstGroup
          (CRE.cat (CRE.cls (fun c => c == '-' || c == '_')) creOptV)
          creVersionGroup (CRE.cls (· == '.')) false url.data with
      | some g => some ⟨g⟩
      | none =>
        match CRE.firstGroup (CRE.cat (CRE.cls (· == '/')) creOptV)
            creVersionGroup
            (CRE.cat (CRE.cls (· == '/')) (CRE.clsStar (· != '/')))
            true url.data with
        | some g => some ⟨g⟩
        | none => none

/-- `extract_version_from_download_url` on a raw value: falsy values give
`None`, truthy non-strings raise inside `re.search` (`none`). -/
def extract_version_from_download_url_j (v : JValue) : Option (Option String) :=
  if !v.truthy then some none
  else match v with
    | .str s => some (extract_version_from_download_url s)
    | _ => none

open CRE in
/-- The release-name pattern
`(?:v)?(\d+\.\d+(?:\.\d+)?(?:[a-zA-Z0-9\-\.]*)?)` of
`get_latest_release_version`. -/
def releaseNameVersion (name : String) : Option String :=
  (CRE.firstGroup creOptV creVersionGroup CRE.eps false name.data).map
    (fun g => ⟨g⟩)

/-- The `name`-fallback branch of `get_latest_release_version` (runs when
the `tag` branch did not return); `none` models a raised exception. -/
def latestFromName (res : JValue) : Option (Option String) :=
  match pyIn "name" res with
  | none => none
  | some false => some none
  | some true =>
    match res with
    | .obj rkvs =>
      match lookupKey rkvs "name" with
      | some nv =>
        if nv.truthy then
          match nv with
          | .str name => some (releaseNameVersion name)
          | _ => none
        else some none
      | none => some none
    | _ => none

/-- The body of `get_latest_release_version` applied to
`releases[0]`; the tail of the releases list is never consulted. -/
def latestFromRelease0 (r0 : JValue) : Option (Option String) :=
  match pyIn "result" r0 with
  | none => none
  | some false => some none
  | some true =>
    match r0 with
    | .obj kvs =>
      match lookupKey kvs "result" with
      | some res =>
        -- `if "tag" in result and result["tag"]:`
        match pyIn "tag" res with
        | none => none
        | some tagIn =>
          if tagIn then
            match res with
            | .obj rkvs =>
              match lookupKey rkvs "tag" with
              | some tv =>
                if tv.truthy then
                  match tv with
                  | .str tag =>
                    some (some (if pyStartsWith tag "v" then pyDropChars tag 1 else tag))
                  | _ => none
                else latestFromName res
              | none => latestFromName res
            | _ => none
          else latestFromName res
      | none => some none
    | _ => none

/-- `p019.py::get_latest_release_version`; `none` models a raised
exception. -/
def get_latest_release_version (somef : Somef) : Option (Option String) :=
  match lookupKey somef "releases" with
  | none => some none
  | some (.arr []) => some none
  | some (.arr (r0 :: _)) => latestFromRelease0 r0
  | some _ => some none

/-- Result dictionary of `detect_outdated_download_url_pitfall`. -/
structure P019Result where
  has_pitfall : Bool
  file_name : String
  download_url : Option JValue
  download_version : Option String
  latest_release_version : Option String
  source : Option JValue

def p019_empty (fname : String) : P019Result :=
  ⟨false, fname, none, none, none, none⟩

/-- The download-entry loop of `detect_outdated_download_url_pitfall`:
the first entry whose source mentions `codemeta.json` (or whose technique
is `code_parser` with `codemeta` in the lower-cased source) and which
carries a `result.value`.  Outer `none` is a raised exception; inner
`none` means no codemeta download URL was found. -/
def p019_find_codemeta_url : List JValue → Option (Option (JValue × JValue))
  | [] => some none
  | entry :: rest =>
    match entry with
    | .obj kvs =>
      let source := pyGet kvs "source" (.str "")
      let technique := pyGet kvs "technique" (.str "")
      match pyIn "codemeta.json" source with
      | none => none
      | some b1 =>
        let cond? : Option Bool :=
          if b1 then some true
          else if JValue.eqStr technique "code_parser" then
            match source with
            | .str s => some (strContains (pyLower s) "codemeta")
            | _ => none
          else some false
        match cond? with
        | none => none
        | some false => p019_find_codemeta_url rest
        | some true =>
          match lookupKey kvs "result" with
          | none => p019_find_codemeta_url rest
          | some res =>
            match pyIn "value" res with
            | none => none
            | some false => p019_find_codemeta_url rest
            | some true =>
              match res with
              | .obj rkvs =>
                match lookupKey rkvs "value" with
                | some v => some (some (v, source))
                | none => p019_find_codemeta_url rest
              | _ => none
    | _ => none

/-- `p019.py::detect_outdated_download_url_pitfall`; `none` models a raised
exception (caught by the caller, which then skips this detector). -/
def detect_outdated_download_url_pitfall (somef : Somef) (fname : String) :
    Option P019Result :=
  match lookupKey somef "download_url" with
  | none => some (p019_empty fname)
  | some (.arr entries) =>
    (match p019_find_codemeta_url entries with
     | none => none
     | some none => some (p019_empty fname)
     | some (some (v, src)) =>
       if !v.truthy then some (p019_empty fname)
       else
         match extract_version_from_download_url_j v with
         | none => none
         | some none => some (p019_empty fname)
         | some (some dv) =>
           if dv == "" then some (p019_empty fname)
           else
             match get_latest_release_version somef with
             | none => none
             | some none => some (p019_empty fname)
             | some (some lv) =>
               if lv == "" then some (p019_empty fname)
               else if dv != lv then
                 some ⟨true, fname, some v, some dv, some lv, some src⟩
               else some (p019_empty fname))
  | some _ => some (p019_empty fname)

/-! ## Corpus aggregation (`detect_pitfalls_main.py`, both variants)

Both `detect_all_pitfalls` drivers keep, per rule, a trigger count and a
language→count dictionary; for every repository whose detector triggers,
the count is incremented and every extracted language of the repository is
incremented in the dictionary (`results[...]["languages"]`).  After the
loop the percentage is `round(count / total_repos * 100, 2)` whenever
`total_repos > 0`, and stays at its initial `0.0` otherwise. -/

/-- One iteration of
`for lang in languages: if lang in entry["languages"]: ... += 1 else ... = 1`. -/
def bumpLang (m : List (String × Nat)) (l : String) : List (String × Nat) :=
  if m.any (fun p => p.1 == l) then
    m.map (fun p => if p.1 == l then (p.1, p.2 + 1) else p)
  else m ++ [(l, 1)]

/-- The whole language loop for one triggering repository. -/
def foldLangs (m : List (String × Nat)) (langs : List String) :
    List (String × Nat) :=
  langs.foldl bumpLang m

/-- Per-rule running state of `detect_all_pitfalls`:
`pitfall_counts[idx]` and `results[...][idx]["languages"]`. -/
structure RuleEntry where
  count : Nat
  languages : List (String × Nat)

/-- The per-repository update of one rule entry (`detect_all_pitfalls`
loop body): on a trigger the count is incremented and, if the language
list is non-empty (`if languages:`), each language is bumped. -/
def ruleFoldStep (e : RuleEntry) (triggered : Bool) (langs : List String) :
    RuleEntry :=
  if triggered then
    { count := e.count + 1,
      languages := if langs.isEmpty then e.languages else foldLangs e.languages langs }
  else e

/-- Folding a whole corpus into one rule's entry.  A repository whose
`extract_programming_languages` raises is skipped entirely (the
surrounding `except` clause `continue`s); `det` abstracts the detector's
triggered verdict (`has_pitfall`, or `has_pitfall or has_warning` in the
metacheck variant). -/
def runCorpusRule (det : Somef → Bool) (records : List Somef) : RuleEntry :=
  records.foldl
    (fun e r =>
      match extract_programming_languages r with
      | none => e
      | some langs => ruleFoldStep e (det r) langs)
    ⟨0, []⟩

/-- Two-decimal rounding, `round(x, 2)` (over `ℚ`; exact at the inputs
used here, which are not half-way cases, so Python's float/banker
rounding agrees). -/
def round2 (q : ℚ) : ℚ := (round (q * 100) : ℚ) / 100

/-- The percentage finalization of `detect_all_pitfalls`
(`detect_pitfalls_main.py` lines 319-322 and the metacheck variant lines
365-368): denominator `total_repos`, initial `0.0` kept when it is zero. -/
def finalize_percentage (count total : ℕ) : ℚ :=
  if 0 < total then round2 ((count : ℚ) / (total : ℚ) * 100) else 0

/-- The guarded percentages of
`PitfallAnalyzer.analyze_all_repositories` (`detect_pitfalls.py` lines
1367-1442): `num / den * 100` when the per-property denominator is
positive, `0` otherwise, then `round(x, 2)`. -/
def pct_or_zero (num den : ℕ) : ℚ :=
  round2 (if 0 < den then (num : ℚ) / (den : ℚ) * 100 else 0)

/-! ## `src/metacheck/utils/json_ld_utils.py` and the JSON-LD decision -/

/-- `name.rfind('.')`. -/
def pyRFind (cs : List Char) (c : Char) : Int :=
  match (cs.reverse.findIdx? (· == c)) with
  | some j => (cs.length : Int) - 1 - (j : Int)
  | none => -1

/-- `pathlib.PurePath.stem` for a bare file name (the callers pass
`json_file.name`, which has no directory part): the name up to the last
dot, unless that dot is the first or last character. -/
def pathStem (name : String) : String :=
  let cs := name.data
  let i := pyRFind cs '.'
  if 0 < i ∧ i < (cs.length : Int) - 1 then ⟨cs.take i.toNat⟩ else name

/-- The output file name computed by `save_individual_pitfall_jsonld`:
`f"{Path(file_name).stem}_pitfalls.jsonld"`. -/
def save_individual_pitfall_jsonld_name (file_name : String) : String :=
  pathStem file_name ++ "_pitfalls.jsonld"

/-- `result.get("has_pitfall", False) or result.get("has_warning", False)`
on one detector result dictionary. -/
def resultTriggered (kvs : Somef) : Bool :=
  (pyGet kvs "has_pitfall" (.bool false)).truthy ||
  (pyGet kvs "has_warning" (.bool false)).truthy

/-- `has_any_issue` of the metacheck `detect_all_pitfalls` (lines
335-338). -/
def has_any_issue (results : List Somef) : Bool :=
  results.any resultTriggered

/-- The per-repository JSON-LD write decision of the metacheck
`detect_all_pitfalls` (lines 340-346): the evidence file, with its name,
is produced iff some finding triggered. -/
def jsonld_written (results : List Somef) (file_name : String) :
    Option String :=
  if has_any_issue results then
    some (save_individual_pitfall_jsonld_name file_name)
  else none

/-! ## Concrete fixtures -/

/-- A LICENSE text with eleven non-empty lines and only copyright
information (`author:` markers). -/
def elevenAuthorLines : String :=
  "Author: Alice\nAuthor: Alice\nAuthor: Alice\nAuthor: Alice\nAuthor: Alice\nAuthor: Alice\nAuthor: Alice\nAuthor: Alice\nAuthor: Alice\nAuthor: Alice\nAuthor: Alice"

/-- The scenario LICENSE text of the specification. -/
def janeDoeLicense : String := "YEAR: 2017\nCOPYRIGHT HOLDER: Jane Doe"

/-- An extraction record whose `license` observation (from `codemeta.json`
via `code_parser`) is the local file `./LICENSE.md`. -/
def recLocalLicense : Somef :=
  [("license", .arr [.obj [("technique", .str "code_parser"),
    ("result", .obj [("value", .str "./LICENSE.md")])]])]

/-- An extraction record without any `license` property. -/
def recNoLicense : Somef := [("name", .str "empty")]

/-- A two-repository corpus: one triggers the local-file license rule,
the other does not even possess the `license` property. -/
def corpus2 : List Somef := [recLocalLicense, recNoLicense]

/-- The P008 verdict as consulted by `detect_all_pitfalls`
(`pitfall_result["has_pitfall"]`; a raised detector exception is caught
and counts as not triggered). -/
def p008_triggers (r : Somef) : Bool :=
  match detect_local_file_license_pitfall r "f" with
  | some x => x.has_pitfall
  | none => false

/-- A record with a codemeta `download_url` carrying a versioned archive
URL and a `releases` list whose FIRST element has no `tag`/`name` but
whose SECOND element carries the tag `v2.0`. -/
def recReleasesFirstEmpty : Somef :=
  [("download_url", .arr [.obj [("source", .str "/repo/codemeta.json"),
     ("result", .obj [("value", .str "https://x/archive/1.0.tar.gz")])]]),
   ("releases", .arr [.obj [("result", .obj [])],
     .obj [("result", .obj [("tag", .str "v2.0")])]])]

/-- A Python repository that triggers the local-file license rule. -/
def recPyLicense : Somef :=
  [("programming_languages",
    .arr [.obj [("result", .obj [("value", .str "Python")])]]),
   ("license", .arr [.obj [("technique", .str "code_parser"),
    ("result", .obj [("value", .str "./LICENSE.md")])]])]

/-! ## Claim C2 -/

/-- **C2.** For every extraction record in which the `license` property is
absent, `detect_local_file_license_pitfall` returns its untriggered result
dictionary (`has_pitfall = False`) without raising; and for every record
in which no key lower-cases to `identifier`, `_analyze_identifier_empty`
returns `(False, …)` with `has_identifier = False`. -/
theorem claim_c2_absent_property_untriggered (somef : Somef) (fname : String) :
    (lookupKey somef "license" = none →
      detect_local_file_license_pitfall somef fname = some (p008_empty fname)) ∧
    (lookupLowerIn somef ["identifier"] = none →
      analyze_identifier_empty somef = (false, ⟨false, none, false, "none"⟩)) := by
  constructor
  · intro h
    unfold detect_local_file_license_pitfall
    rw [h]
  · intro h
    unfold analyze_identifier_empty
    rw [h]

/-- Witness for C2 at a concrete record lacking both properties. -/
theorem claim_c2_witness :
    detect_local_file_license_pitfall [("name", JValue.str "x")] "r.json" =
      some (p008_empty "r.json") ∧
    analyze_identifier_empty [("name", JValue.str "x")] =
      (false, ⟨false, none, false, "none"⟩) :=
  ⟨(claim_c2_absent_property_untriggered [("name", JValue.str "x")] "r.json").1 rfl,
   (claim_c2_absent_property_untriggered [("name", JValue.str "x")] "r.json").2 rfl⟩

/-! ## Claim C4 -/

/-- **C4, counterexample.** `"https://spdx.org/licenses/MIT"` matches the
valid canonical SPDX URL prefix, yet the legacy
`scripts/p008.py::is_local_file_license` — one of the two implementations
of the local-file license rule — triggers on it (its `/license` substring
pattern fires and it has no exemption list), contradicting the claim that
such values never trigger the rule. -/
theorem claim_c4_counterexample :
    p008v2_valid_hit "https://spdx.org/licenses/MIT" = true ∧
    is_local_file_license "https://spdx.org/licenses/MIT" = true := by
  exact ⟨by decide, by decide⟩

/-- **C4, amended.** In the metacheck variant
(`src/metacheck/scripts/p008.py`) the exemption is checked before the
filename heuristics, so any value matching a valid canonical license URL
pattern never triggers; `"./LICENSE.md"` triggers in both variants.  The
legacy `scripts/p008.py` variant has no exemption and does trigger on
canonical license URLs. -/
theorem claim_c4_amended :
    (∀ s : String, p008v2_valid_hit s = true → is_local_file_license_v2 s = false) ∧
    is_local_file_license_v2 "./LICENSE.md" = true ∧
    is_local_file_license "./LICENSE.md" = true := by
  refine ⟨?_, by decide, by decide⟩
  intro s h
  unfold is_local_file_license_v2
  by_cases hs : s == ""
  · simp [hs]
  · simp [hs, h]

/-- Witness for C4 applying the exemption at the SPDX URL. -/
theorem claim_c4_witness :
    is_local_file_license_v2 "https://spdx.org/licenses/MIT" = false :=
  claim_c4_amended.1 "https://spdx.org/licenses/MIT" (by decide)

/-! ## Claim C5 -/

/-- The missing-version count of the requirements scan over object items
is positive exactly when some item lacks every accepted version key. -/
theorem swreq_scan_objs_pos (items : List Somef) :
    decide (0 < (swreq_scan (items.map JValue.obj)).2.1) =
      items.any (fun kvs => !swreq_item_has_version kvs) := by
  induction items with
  | nil => rfl
  | cons kvs rest ih =>
    by_cases hv : swreq_item_has_version kvs
    · simpa [swreq_scan, hv] using ih
    · simp [swreq_scan, hv]

/-- The missing-version count of the languages scan over object items is
positive exactly when some item lacks every accepted version key. -/
theorem proglang_scan_objs_pos (items : List Somef) :
    decide (0 < (proglang_scan (items.map JValue.obj)).2.1) =
      items.any (fun kvs => !proglang_item_has_version_keys kvs) := by
  induction items with
  | nil => rfl
  | cons kvs rest ih =>
    by_cases hv : proglang_item_has_version_keys kvs
    · simpa [proglang_scan, proglang_item_version, hv] using ih
    · simp [proglang_scan, proglang_item_version, hv]

/-- **C5, counterexample.** A requirement object whose only key is
`versionRequirement` and a language object whose only key is
`applicationVersion`: under the claim both count as "having a version"
(all four spellings are claimed for both rules), so neither rule should
trigger; but `_analyze_software_requirements` does not accept
`versionrequirement` and `_analyze_programming_languages_versions` does
not accept `applicationversion`, so both rules trigger. -/
theorem claim_c5_counterexample :
    swreq_item_has_version [("versionRequirement", JValue.str "1.0")] = false ∧
    (analyze_software_requirements
      [("softwareRequirements",
        JValue.arr [.obj [("versionRequirement", JValue.str "1.0")]])]).1 = true ∧
    proglang_item_has_version_keys [("applicationVersion", JValue.str "2")] = false ∧
    (analyze_programming_languages_versions
      [("programmingLanguage",
        JValue.arr [.obj [("applicationVersion", JValue.str "2")]])]).1 = true :=
  ⟨by decide, rfl, by decide, rfl⟩

/-- **C5, amended.** An object-shaped item counts as having a version iff
one of its keys case-insensitively matches an accepted spelling, but the
accepted spellings differ per rule: `_analyze_software_requirements`
accepts `{version, softwareversion, applicationversion}` (not
`versionrequirement`), `_analyze_programming_languages_versions` accepts
`{version, versionrequirement, softwareversion}` (not
`applicationversion`); each rule triggers on a list of object items iff
some item lacks all of its accepted spellings. -/
theorem claim_c5_amended :
    swreq_version_keys = ["version", "softwareversion", "applicationversion"] ∧
    proglang_version_keys = ["version", "versionrequirement", "softwareversion"] ∧
    (∀ kvs : Somef, swreq_item_has_version kvs =
      kvs.any (fun p => swreq_version_keys.contains (pyLower p.1))) ∧
    (∀ kvs : Somef, proglang_item_has_version_keys kvs =
      kvs.any (fun p => proglang_version_keys.contains (pyLower p.1))) ∧
    (∀ items : List Somef,
      (analyze_software_requirements
        [("softwareRequirements", JValue.arr (items.map JValue.obj))]).1 =
        items.any (fun kvs => !swreq_item_has_version kvs)) ∧
    (∀ items : List Somef,
      (analyze_programming_languages_versions
        [("programmingLanguage", JValue.arr (items.map JValue.obj))]).1 =
        items.any (fun kvs => !proglang_item_has_version_keys kvs)) := by
  refine ⟨rfl, rfl, fun _ => rfl, fun _ => rfl, ?_, ?_⟩
  · intro items
    cases items with
    | nil => rfl
    | cons a as => exact swreq_scan_objs_pos (a :: as)
  · intro items
    cases items with
    | nil => rfl
    | cons a as => exact proglang_scan_objs_pos (a :: as)

/-! ## Claim C6 -/

/-- **C6, counterexample.** The value `"1abc"` fails every branch-name
pattern and every proper-version pattern (in particular the three
semantic-version-like patterns named by the claim, which are among the
six), so under the claim the rule should trigger; but
`_analyze_software_version` additionally requires the value to match
`^[a-zA-Z_-]+$`, which `"1abc"` does not, so the rule does not trigger. -/
theorem claim_c6_counterexample :
    branch_name_patterns.all (fun p => !p.1 "1abc") = true ∧
    proper_version_hit "1abc" = false ∧
    (analyze_software_version [("softwareVersion", JValue.str "1abc")]).1 = false :=
  ⟨by decide, by decide, rfl⟩

/-- **C6, amended.** For a non-empty string `softwareVersion`, the rule
triggers iff the lower-cased, stripped value matches a branch-name
pattern, or it matches no proper-version pattern AND consists solely of
ASCII letters, underscores and hyphens (`^[a-zA-Z_-]+$`); `"master"`
triggers with `detected_branch_type = "main_branch"` and `"1.2.3"` does
not trigger. -/
theorem claim_c6_amended (s : String) (hs : s ≠ "") :
    ((analyze_software_version [("softwareVersion", JValue.str s)]).1 =
      (branch_name_patterns.any (fun p => p.1 (pyStrip (pyLower s))) ||
       (!proper_version_hit s && custom_branch_hit s))) ∧
    (analyze_software_version
      [("softwareVersion", JValue.str "master")]).2.detected_branch_type =
      some "main_branch" ∧
    (analyze_software_version [("softwareVersion", JValue.str "master")]).1 = true ∧
    (analyze_software_version [("softwareVersion", JValue.str "1.2.3")]).1 = false := by
  refine ⟨?_, rfl, rfl, rfl⟩
  have hlook : lookupLowerIn [("softwareVersion", JValue.str s)]
      ["softwareversion", "software_version", "version"] = some (.str s) := rfl
  have htr : (JValue.str s).truthy = true := by
    simp [JValue.truthy, hs]
  simp only [analyze_software_version, hlook, htr, Bool.not_true,
    Bool.false_eq_true, if_false]
  cases hfind : branch_name_patterns.find? (fun p => p.1 (pyStrip (pyLower s))) with
  | some pr =>
    have hpa := List.find?_some hfind
    have hany : branch_name_patterns.any (fun p => p.1 (pyStrip (pyLower s))) = true :=
      List.any_eq_true.mpr ⟨pr, List.mem_of_find?_eq_some hfind, hpa⟩
    simp [hany]
  | none =>
    have hany : branch_name_patterns.any (fun p => p.1 (pyStrip (pyLower s))) = false := by
      rw [Bool.eq_false_iff]
      intro hcontra
      obtain ⟨pr, hpr, hprs⟩ := List.any_eq_true.mp hcontra
      exact absurd hprs (by simpa using List.find?_eq_none.mp hfind pr hpr)
    rw [hany]
    by_cases hp : proper_version_hit s <;> by_cases hc : custom_branch_hit s <;>
      simp [hp, hc]

/-- Witness for C6 at the scenario value `"master"`. -/
theorem claim_c6_witness :
    ((analyze_software_version [("softwareVersion", JValue.str "master")]).1 =
      (branch_name_patterns.any (fun p => p.1 (pyStrip (pyLower "master"))) ||
       (!proper_version_hit "master" && custom_branch_hit "master"))) ∧
    (analyze_software_version
      [("softwareVersion", JValue.str "master")]).2.detected_branch_type =
      some "main_branch" ∧
    (analyze_software_version [("softwareVersion", JValue.str "master")]).1 = true ∧
    (analyze_software_version [("softwareVersion", JValue.str "1.2.3")]).1 = false :=
  claim_c6_amended "master" (by decide)

/-! ## Claim C7 -/

/-- **C7.** The keywords rule triggers exactly on records whose located
keywords value is a raw string (lists, objects, other shapes and a
missing or `null` value never trigger), and its evidence tokens split on
`,` first, then `;`, else keep the whole trimmed string; on
`"nlp, parsing; tokenizer"` the tokens are `["nlp", "parsing; tokenizer"]`. -/
theorem claim_c7_keywords_string_rule (cm : Somef) :
    ((analyze_keywords_string_instead_of_list cm).1 = true ↔
      (∃ s : String,
        lookupLowerIn cm ["keywords", "keyword", "tags", "tag"] =
          some (JValue.str s))) ∧
    (∀ s : String,
      lookupLowerIn cm ["keywords", "keyword", "tags", "tag"] =
          some (JValue.str s) →
      (analyze_keywords_string_instead_of_list cm).2.parsed_keywords =
        parseKeywordTokens s) ∧
    parseKeywordTokens "nlp, parsing; tokenizer" = ["nlp", "parsing; tokenizer"] ∧
    (analyze_keywords_string_instead_of_list
      [("keywords", JValue.str "nlp, parsing; tokenizer")]).1 = true := by
  refine ⟨?_, ?_, by decide, rfl⟩
  · cases h : lookupLowerIn cm ["keywords", "keyword", "tags", "tag"] with
    | none => simp [analyze_keywords_string_instead_of_list, h]
    | some v =>
      cases v <;> simp [analyze_keywords_string_instead_of_list, h]
  · intro s h
    simp [analyze_keywords_string_instead_of_list, h]

/-- Witness for C7 at the scenario record. -/
theorem claim_c7_witness :
    (analyze_keywords_string_instead_of_list
      [("keywords", JValue.str "nlp, parsing; tokenizer")]).2.parsed_keywords =
      parseKeywordTokens "nlp, parsing; tokenizer" :=
  (claim_c7_keywords_string_rule
    [("keywords", JValue.str "nlp, parsing; tokenizer")]).2.1
    "nlp, parsing; tokenizer" rfl

/-! ## Claim C3 -/

/-- **C3, counterexample.** A LICENSE text of eleven `Author: Alice`
lines contains a copyright marker (the rule's `author:` pattern) and no
license-term marker, so by the claim's "triggers iff copyright marker and
no license-term marker" it should trigger; but
`check_copyright_only_license` returns `False` because the text has more
than 10 non-empty lines and does not hit the `year:`/`copyright holder:`
fast path. -/
theorem claim_c3_counterexample :
    p020_has_copyright (pyLower elevenAuthorLines) = true ∧
    p020_has_terms (pyLower elevenAuthorLines) = false ∧
    check_copyright_only_license elevenAuthorLines = false :=
  ⟨by decide, by decide, by decide⟩

/-- **C3, amended.** `check_copyright_only_license` triggers iff the text
has a copyright marker, no license-term marker AND at most 10 non-empty
lines, or both the `year:`-with-year and `copyright holder:` markers are
present (regardless of line count and of license-term markers); the
scenario text `"YEAR: 2017\nCOPYRIGHT HOLDER: Jane Doe"` triggers. -/
theorem claim_c3_amended :
    (∀ content : String,
      check_copyright_only_license content =
        ((p020_has_copyright (pyLower content) &&
          !p020_has_terms (pyLower content) &&
          decide (p020_nonempty_lines content ≤ 10)) ||
         (RE.search p020_year_marker (pyLower content) &&
          RE.search p020_holder_marker (pyLower content)))) ∧
    check_copyright_only_license janeDoeLicense = true := by
  refine ⟨?_, by decide⟩
  intro content
  by_cases h : content = ""
  · subst h; decide
  · have h' : (content == "") = false := by simpa using h
    simp only [check_copyright_only_license, h', Bool.false_eq_true, if_false]
    cases hA : p020_has_copyright (pyLower content) <;>
    cases hB : p020_has_terms (pyLower content) <;>
    cases hC : decide (p020_nonempty_lines content ≤ 10) <;>
    cases hY : RE.search p020_year_marker (pyLower content) <;>
    cases hH : RE.search p020_holder_marker (pyLower content) <;>
    simp [hA, hB, hC, hY, hH]

/-! ## Claim C8 -/

/-- **C8.** The per-repository JSON-LD evidence document is produced iff
at least one of the repository's findings triggered (`has_pitfall` or
`has_warning`), and the produced file for input `F` is named
`Path(F).stem + "_pitfalls.jsonld"`; a repository with no triggered
finding produces no file. -/
theorem claim_c8_jsonld_written_iff (results : List Somef) (fname : String) :
    ((jsonld_written results fname).isSome = true ↔
      ∃ r ∈ results, resultTriggered r = true) ∧
    (∀ out, jsonld_written results fname = some out →
      out = pathStem fname ++ "_pitfalls.jsonld") ∧
    jsonld_written [[("has_pitfall", JValue.bool true)]] "repo1.json" =
      some "repo1_pitfalls.jsonld" ∧
    jsonld_written [[("has_pitfall", JValue.bool false),
                     ("has_warning", JValue.bool false)]] "repo1.json" = none := by
  refine ⟨?_, ?_, by decide, by decide⟩
  · constructor
    · intro h
      by_cases hA : has_any_issue results
      · exact List.any_eq_true.mp hA
      · simp [jsonld_written, hA] at h
    · intro h
      have hA : has_any_issue results = true := List.any_eq_true.mpr h
      simp [jsonld_written, hA]
  · intro out h
    by_cases hA : has_any_issue results
    · simp [jsonld_written, hA, save_individual_pitfall_jsonld_name] at h
      exact h.symm
    · simp [jsonld_written, hA] at h

/-- Witness for C8: the produced name at a triggering repository. -/
theorem claim_c8_witness :
    "repo1_pitfalls.jsonld" = pathStem "repo1.json" ++ "_pitfalls.jsonld" :=
  (claim_c8_jsonld_written_iff [[("has_pitfall", JValue.bool true)]]
    "repo1.json").2.1 "repo1_pitfalls.jsonld" (by decide)

/-! ## Claim C9 -/

/-- **C9.** `get_latest_release_version` consults only the first element
of the `releases` list (tag with a leading `v` stripped, else the first
version-like token of the name); whenever it yields no version, the
outdated-downloadURL detector — if it returns at all — reports
`has_pitfall = False`, even when later release elements carry version
tags (`recReleasesFirstEmpty`). -/
theorem claim_c9_latest_release_first_element_only (somef : Somef) (fname : String) :
    (∀ (r0 : JValue) (rest : List JValue),
      lookupKey somef "releases" = some (.arr (r0 :: rest)) →
      get_latest_release_version somef = latestFromRelease0 r0) ∧
    (∀ r : P019Result,
      get_latest_release_version somef = some none →
      detect_outdated_download_url_pitfall somef fname = some r →
      r.has_pitfall = false) ∧
    latestFromRelease0 (.obj [("result", .obj [("tag", JValue.str "v1.2.3")])]) =
      some (some "1.2.3") ∧
    latestFromRelease0 (.obj [("result", .obj [("name", JValue.str "Release 2.0")])]) =
      some (some "2.0") ∧
    (detect_outdated_download_url_pitfall recReleasesFirstEmpty "r.json").map
      (·.has_pitfall) = some false := by
  refine ⟨?_, ?_, by decide, by decide, by decide⟩
  · intro r0 rest h
    unfold get_latest_release_version
    rw [h]
  · intro r hl hd
    simp only [detect_outdated_download_url_pitfall, hl] at hd
    repeat' split at hd
    all_goals try simp at hd
    all_goals rw [← hd]
    all_goals rfl

/-- Witness for C9 at `recReleasesFirstEmpty` (whose first release element
yields no version although the second carries the tag `v2.0`). -/
theorem claim_c9_witness :
    (p019_empty "r.json").has_pitfall = false :=
  (claim_c9_latest_release_first_element_only recReleasesFirstEmpty
    "r.json").2.1 (p019_empty "r.json") (by rfl) (by rfl)

/-! ## Claim C1 -/

/-- The per-rule trigger count of the corpus fold equals the number of
non-skipped records on which the detector reports a trigger. -/
theorem runCorpusRule_count (det : Somef → Bool) (records : List Somef) :
    (runCorpusRule det records).count =
      (records.filter
        (fun r => (extract_programming_languages r).isSome && det r)).length := by
  suffices h : ∀ (rs : List Somef) (e : RuleEntry),
      (rs.foldl (fun e r =>
        match extract_programming_languages r with
        | none => e
        | some langs => ruleFoldStep e (det r) langs) e).count =
      e.count + (rs.filter
        (fun r => (extract_programming_languages r).isSome && det r)).length by
    simpa [runCorpusRule] using h records ⟨0, []⟩
  intro rs
  induction rs with
  | nil => intro e; simp
  | cons r rest ih =>
    intro e
    rw [List.foldl_cons, List.filter_cons, ih]
    cases hx : extract_programming_languages r with
    | none => simp [hx]
    | some langs =>
      cases hdet : det r with
      | false => simp [hx, hdet, ruleFoldStep]
      | true =>
        simp [hx, hdet, ruleFoldStep]
        omega

/-- **C1, counterexample.** In the two-repository corpus `corpus2`, one
repository triggers P008 and is the only one possessing the `license`
property.  The claim predicts `1 / 1 * 100 = 100.0`, but
`detect_all_pitfalls` divides by the total number of analyzed
repositories: it reports `round(1 / 2 * 100, 2) = 50.0`. -/
theorem claim_c1_counterexample :
    (runCorpusRule p008_triggers corpus2).count = 1 ∧
    corpus2.length = 2 ∧
    (corpus2.filter (fun r => (lookupKey r "license").isSome)).length = 1 ∧
    finalize_percentage 1 2 = 50 ∧
    round2 (((1 : ℕ) : ℚ) / ((1 : ℕ) : ℚ) * 100) = 100 ∧
    (50 : ℚ) ≠ 100 := by
  refine ⟨rfl, rfl, rfl, ?_, ?_, by norm_num⟩
  · norm_num [finalize_percentage, round2]
  · norm_num [round2]

/-- **C1, amended.** Both `detect_all_pitfalls` drivers use the total
number of analyzed repositories as the denominator for every rule: the
finalized percentage is `round(count / total_repos * 100, 2)` when
`total_repos > 0` and stays `0.0` (with no division) when it is `0`; the
trigger count is the number of non-skipped records whose detector
triggered.  The per-property denominators of the claim occur only in
`PitfallAnalyzer.analyze_all_repositories`, whose percentages are
`round(num / den * 100, 2)` for a positive per-property denominator and
`0.0` otherwise. -/
theorem claim_c1_amended :
    (∀ (det : Somef → Bool) (records : List Somef),
      (runCorpusRule det records).count =
        (records.filter
          (fun r => (extract_programming_languages r).isSome && det r)).length) ∧
    (∀ count : ℕ, finalize_percentage count 0 = 0) ∧
    (∀ count total : ℕ, 0 < total →
      finalize_percentage count total = round2 ((count : ℚ) / (total : ℚ) * 100)) ∧
    (∀ num : ℕ, pct_or_zero num 0 = 0) ∧
    (∀ num den : ℕ, 0 < den →
      pct_or_zero num den = round2 ((num : ℚ) / (den : ℚ) * 100)) ∧
    finalize_percentage (runCorpusRule p008_triggers corpus2).count
      corpus2.length = 50 := by
  refine ⟨runCorpusRule_count, ?_, ?_, ?_, ?_, ?_⟩
  · intro count; simp [finalize_percentage]
  · intro count total h; simp [finalize_percentage, h]
  · intro num; norm_num [pct_or_zero, round2]
  · intro num den h; simp [pct_or_zero, h]
  · have h1 : (runCorpusRule p008_triggers corpus2).count = 1 := rfl
    have h2 : corpus2.length = 2 := rfl
    rw [h1, h2]
    norm_num [finalize_percentage, round2]

/-- Witness for C1 at positive denominators. -/
theorem claim_c1_witness :
    finalize_percentage 1 2 = round2 (((1 : ℕ) : ℚ) / ((2 : ℕ) : ℚ) * 100) ∧
    pct_or_zero 1 4 = round2 (((1 : ℕ) : ℚ) / ((4 : ℕ) : ℚ) * 100) :=
  ⟨claim_c1_amended.2.2.1 1 2 (by decide),
   claim_c1_amended.2.2.2.2.1 1 4 (by decide)⟩

/-! ## Claim C10 -/

/-- Every element of `bumpLang m l` is the fresh pair `(l, 1)`, an
untouched element of `m`, or an element of `m` with key `l` and its count
incremented. -/
theorem mem_bumpLang {m : List (String × Nat)} {l : String} {q : String × Nat}
    (hq : q ∈ bumpLang m l) :
    q = (l, 1) ∨ ∃ p ∈ m, q = p ∨ (p.1 = l ∧ q = (p.1, p.2 + 1)) := by
  unfold bumpLang at hq
  by_cases h : m.any (fun p => p.1 == l)
  · simp only [h, if_true] at hq
    obtain ⟨p, hp, hpq⟩ := List.mem_map.mp hq
    by_cases hpl : p.1 == l
    · simp only [hpl, if_true] at hpq
      exact Or.inr ⟨p, hp, Or.inr ⟨by simpa using hpl, hpq.symm⟩⟩
    · simp only [hpl, if_false] at hpq
      exact Or.inr ⟨p, hp, Or.inl hpq.symm⟩
  · simp only [h, if_false] at hq
    rcases List.mem_append.mp hq with h1 | h1
    · exact Or.inr ⟨q, h1, Or.inl rfl⟩
    · left; simpa using h1

/-- Keys produced by the language loop stay inside the allow-list. -/
theorem foldLangs_keys_mem (T : List String) :
    ∀ (langs : List String) (m : List (String × Nat)),
      (∀ l ∈ langs, l ∈ T) →
      (∀ p ∈ m, p.1 ∈ T) →
      ∀ q ∈ foldLangs m langs, q.1 ∈ T := by
  intro langs
  induction langs with
  | nil => intro m _ hm q hq; exact hm q hq
  | cons l ls ih =>
    intro m hT hm q hq
    refine ih (bumpLang m l) (fun x hx => hT x (List.mem_cons_of_mem _ hx)) ?_ q hq
    intro p hp
    rcases mem_bumpLang hp with h1 | ⟨p', hp', h2 | ⟨hpl, h3⟩⟩
    · rw [h1]; exact hT l (List.mem_cons_self _ _)
    · rw [h2]; exact hm p' hp'
    · rw [h3]; exact hm p' hp'

/-- Counts produced by one triggering repository grow by at most one: if
the incoming map is bounded by `c` on the keys still to be bumped and by
`c + 1` everywhere, the outgoing map is bounded by `c + 1` (the language
list of one repository is duplicate-free). -/
theorem foldLangs_value_le (c : Nat) :
    ∀ (langs : List String) (m : List (String × Nat)),
      langs.Nodup →
      (∀ p ∈ m, (p.1 ∈ langs → p.2 ≤ c) ∧ p.2 ≤ c + 1) →
      ∀ q ∈ foldLangs m langs, q.2 ≤ c + 1 := by
  intro langs
  induction langs with
  | nil => intro m _ hm q hq; exact (hm q hq).2
  | cons l ls ih =>
    intro m hnd hm q hq
    have hlnotls : l ∉ ls := (List.nodup_cons.mp hnd).1
    refine ih (bumpLang m l) (List.nodup_cons.mp hnd).2 ?_ q hq
    intro p hp
    rcases mem_bumpLang hp with h1 | ⟨p', hp', h2 | ⟨hpl, h3⟩⟩
    · rw [h1]
      exact ⟨fun hl => absurd hl hlnotls, Nat.succ_le_succ (Nat.zero_le c)⟩
    · rw [h2]
      have hmp := hm p' hp'
      exact ⟨fun hl => hmp.1 (List.mem_cons_of_mem _ hl), hmp.2⟩
    · rw [h3]
      have hmp := hm p' hp'
      have hle : p'.2 ≤ c := hmp.1 (by rw [hpl]; exact List.mem_cons_self _ _)
      refine ⟨fun hl => ?_, Nat.succ_le_succ hle⟩
      rw [hpl] at hl
      exact absurd hl hlnotls

/-- The language-extraction loop keeps its accumulator duplicate-free and
inside the allow-list (the loop is always entered with
`lang_list = seen_languages`, both empty). -/
theorem extractLangsLoop_spec :
    ∀ (entries : List JValue) (acc : List String)
      (out : List String × List String),
      acc.Nodup → (∀ l ∈ acc, l ∈ target_languages) →
      extractLangsLoop entries acc acc = some out →
      out.1.Nodup ∧ ∀ l ∈ out.1, l ∈ target_languages := by
  intro entries
  induction entries with
  | nil =>
    intro acc out h1 h2 h
    have hout : out = (acc, acc) := by simpa [extractLangsLoop] using h.symm
    subst hout
    exact ⟨h1, h2⟩
  | cons entry rest ih =>
    intro acc out h1 h2 h
    simp only [extractLangsLoop] at h
    repeat' split at h
    all_goals
      first
        | simp at h
        | exact ih acc out h1 h2 h
        | (rename_i t heq htr hcond
           obtain ⟨hcT, hcA⟩ := Bool.and_eq_true_iff.mp hcond
           have hnT : normalize_language_name t ∈ target_languages := by
             simpa using hcT
           have hnA : normalize_language_name t ∉ acc := by simpa using hcA
           refine ih (acc ++ [normalize_language_name t]) out ?_ ?_ h
           · simp [List.nodup_append, h1, hnA]
           · intro x hx
             rcases List.mem_append.mp hx with hx | hx
             · exact h2 x hx
             · have hxn : x = normalize_language_name t := by simpa using hx
               rw [hxn]; exact hnT)

/-- Every successfully extracted language list is duplicate-free and
contained in the allow-list. -/
theorem extract_programming_languages_spec {r : Somef} {langs : List String}
    (h : extract_programming_languages r = some langs) :
    langs.Nodup ∧ ∀ l ∈ langs, l ∈ target_languages := by
  unfold extract_programming_languages at h
  repeat' split at h
  all_goals
    first
      | (have hnil : langs = [] := by simpa using h.symm
         rw [hnil]
         exact ⟨List.nodup_nil, by simp⟩)
      | (rename_i entries heq
         cases hloop : extractLangsLoop entries [] [] with
         | none => simp [hloop] at h
         | some out =>
           have hlo : langs = out.1 := by
             rw [hloop] at h
             simpa using h.symm
           rw [hlo]
           exact extractLangsLoop_spec entries [] out List.nodup_nil
             (by simp) hloop)

/-- The per-rule invariant is preserved by folding any records. -/
theorem corpus_fold_invariant (det : Somef → Bool) :
    ∀ (records : List Somef) (e : RuleEntry),
      (∀ p ∈ e.languages, p.1 ∈ target_languages ∧ p.2 ≤ e.count) →
      ∀ q ∈ (records.foldl (fun e r =>
          match extract_programming_languages r with
          | none => e
          | some langs => ruleFoldStep e (det r) langs) e).languages,
        q.1 ∈ target_languages ∧
        q.2 ≤ (records.foldl (fun e r =>
          match extract_programming_languages r with
          | none => e
          | some langs => ruleFoldStep e (det r) langs) e).count := by
  intro records
  induction records with
  | nil => intro e he q hq; exact he q hq
  | cons r rest ih =>
    intro e he
    rw [List.foldl_cons]
    apply ih
    cases hx : extract_programming_languages r with
    | none => simpa [hx] using he
    | some langs =>
      obtain ⟨hnd, hT⟩ := extract_programming_languages_spec hx
      simp only [hx]
      unfold ruleFoldStep
      cases hdet : det r with
      | false => simpa using he
      | true =>
        simp only [if_true]
        intro q hq
        by_cases hemp : langs.isEmpty
        · simp only [hemp, if_true] at hq
          have hqe := he q hq
          exact ⟨hqe.1, by omega⟩
        · simp only [hemp, if_false] at hq
          constructor
          · exact foldLangs_keys_mem target_languages langs e.languages hT
              (fun p hp => (he p hp).1) q hq
          · exact foldLangs_value_le e.count langs e.languages hnd
              (fun p hp => ⟨fun _ => (he p hp).2,
                Nat.le_trans (he p hp).2 (Nat.le_succ _)⟩) q hq

/-- **C10.** After folding any sequence of repositories into the corpus
summary, every key of a rule entry's per-language map is one of the six
target languages and each per-language count is at most the rule's total
count. -/
theorem claim_c10_rule_entry_invariant (det : Somef → Bool)
    (records : List Somef) :
    target_languages = ["Python", "Java", "C++", "C", "R", "Rust"] ∧
    ∀ q ∈ (runCorpusRule det records).languages,
      q.1 ∈ target_languages ∧ q.2 ≤ (runCorpusRule det records).count :=
  ⟨rfl, corpus_fold_invariant det records ⟨0, []⟩ (by simp)⟩

/-- Witness for C10 at a one-repository Python corpus. -/
theorem claim_c10_witness :
    ("Python", 1).1 ∈ target_languages ∧
    ("Python", 1).2 ≤ (runCorpusRule p008_triggers [recPyLicense]).count :=
  (claim_c10_rule_entry_invariant p008_triggers [recPyLicense]).2
    ("Python", 1) (by decide)

end MetaCheck
